import Mathlib

/-
Verification of the GitHub-Telegram sync bot core against its specification.
The Python sources are embedded shallowly: Python strings become `List Char`,
raw byte payloads become `List Nat`, timestamps become `Int`, and the per-chat
rate-limit table becomes a function from chat id to a list of timestamps.
-/

/-- Python strings are modelled as lists of characters. -/
abbrev PyStr := List Char

/-! Embedding of src/utils.py, escape_markdown. -/

/-- The MarkdownV2 special characters from src/utils.py line 26. -/
def specialChars : PyStr := ("_*[]()~`>#+-=|\x7b\x7d.!").data

/-- Python str.replace for a single-character pattern: every occurrence of
the character c is replaced by the string r. -/
def pyReplaceChar (c : Char) (r : PyStr) (s : PyStr) : PyStr :=
  (s.map (fun x => if x = c then r else [x])).flatten

/-- The escaping loop of escape_markdown: fold the per-character replace over
the list of special characters, as the source's for-loop does. -/
def escapeFold (cs : PyStr) (s : PyStr) : PyStr :=
  cs.foldl (fun acc c => pyReplaceChar c ['\\', c] acc) s

/-- Embedding of escape_markdown (src/utils.py lines 12-32): empty input is
returned unchanged, otherwise each special character is replaced by a
backslash followed by itself, one sequential pass per special character. -/
def escape_markdown (s : PyStr) : PyStr :=
  if s = [] then [] else escapeFold specialChars s

/-- Per-character escaping as the specification words it: a special character
is prefixed by one backslash, any other character is left alone. -/
def escapeSpecChar (c : Char) : PyStr :=
  if c ∈ specialChars then ['\\', c] else [c]

theorem pyReplaceChar_cons (c : Char) (r : PyStr) (x : Char) (xs : PyStr) :
    pyReplaceChar c r (x :: xs) =
      (if x = c then r else [x]) ++ pyReplaceChar c r xs := by
  simp [pyReplaceChar]

theorem pyReplaceChar_append (c : Char) (r : PyStr) (a b : PyStr) :
    pyReplaceChar c r (a ++ b) = pyReplaceChar c r a ++ pyReplaceChar c r b := by
  simp [pyReplaceChar]

theorem pyReplaceChar_of_not_mem {c : Char} {s : PyStr} (r : PyStr) (h : c ∉ s) :
    pyReplaceChar c r s = s := by
  induction s with
  | nil => rfl
  | cons x xs ih =>
    rw [pyReplaceChar_cons, if_neg, ih (fun hm => h (List.mem_cons_of_mem _ hm))]
    · rfl
    · intro hx
      exact h (hx ▸ List.mem_cons_self _ _)

theorem escapeFold_cons (c : Char) (cs : PyStr) (s : PyStr) :
    escapeFold (c :: cs) s = escapeFold cs (pyReplaceChar c ['\\', c] s) := rfl

theorem escapeFold_append (cs : PyStr) (a b : PyStr) :
    escapeFold cs (a ++ b) = escapeFold cs a ++ escapeFold cs b := by
  induction cs generalizing a b with
  | nil => rfl
  | cons c cs ih =>
    rw [escapeFold_cons, escapeFold_cons, escapeFold_cons, pyReplaceChar_append, ih]

theorem escapeFold_fixed {cs : PyStr} {s : PyStr} (h : ∀ y ∈ s, y ∉ cs) :
    escapeFold cs s = s := by
  induction cs with
  | nil => rfl
  | cons c cs ih =>
    rw [escapeFold_cons, pyReplaceChar_of_not_mem]
    · exact ih (fun y hy hmem => h y hy (List.mem_cons_of_mem _ hmem))
    · intro hc
      exact h c hc (List.mem_cons_self _ _)

theorem escapeFold_single (x : Char) (cs : PyStr)
    (hb : '\\' ∉ cs) (hn : cs.Nodup) :
    escapeFold cs [x] = if x ∈ cs then ['\\', x] else [x] := by
  induction cs with
  | nil => simp [escapeFold]
  | cons c cs ih =>
    have hb' : '\\' ∉ cs := fun hm => hb (List.mem_cons_of_mem _ hm)
    have hn' : cs.Nodup := hn.of_cons
    have hc : c ∉ cs := (List.nodup_cons.mp hn).1
    rw [escapeFold_cons, pyReplaceChar_cons]
    by_cases hx : x = c
    · subst hx
      rw [if_pos rfl]
      have : escapeFold cs (['\\', x] ++ pyReplaceChar x ['\\', x] []) = ['\\', x] := by
        have hfix : ∀ y ∈ (['\\', x] : PyStr), y ∉ cs := by
          intro y hy
          rcases List.mem_cons.mp hy with h1 | h2
          · exact h1 ▸ hb'
          · rcases List.mem_cons.mp h2 with h3 | h4
            · exact h3 ▸ hc
            · exact absurd h4 (List.not_mem_nil _)
        simpa [pyReplaceChar] using escapeFold_fixed hfix
      rw [this, if_pos (List.mem_cons_self _ _)]
    · rw [if_neg hx]
      have : ([x] : PyStr) ++ pyReplaceChar c ['\\', c] [] = [x] := by
        simp [pyReplaceChar]
      rw [this, ih hb' hn']
      by_cases hxs : x ∈ cs
      · rw [if_pos hxs, if_pos (List.mem_cons_of_mem _ hxs)]
      · rw [if_neg hxs, if_neg (fun hm => by
          rcases List.mem_cons.mp hm with h1 | h2
          · exact hx h1
          · exact hxs h2)]

theorem escapeFold_spec (s : PyStr) :
    escapeFold specialChars s = (s.map escapeSpecChar).flatten := by
  induction s with
  | nil =>
    have : ∀ y ∈ ([] : PyStr), y ∉ specialChars := by
      intro y hy
      exact absurd hy (List.not_mem_nil _)
    simpa using escapeFold_fixed this
  | cons x xs ih =>
    have hsplit : (x :: xs : PyStr) = [x] ++ xs := rfl
    rw [hsplit, escapeFold_append, ih,
        escapeFold_single x specialChars (by decide) (by decide)]
    simp [escapeSpecChar]

/-- Claim C3: escape_markdown prefixes every occurrence of each character in
the special set with a single backslash and alters no other character —
the result is exactly the character-wise escaping map applied to the input. -/
theorem claim_C3 (s : PyStr) :
    escape_markdown s = (s.map escapeSpecChar).flatten := by
  by_cases h : s = []
  · subst h
    rfl
  · rw [escape_markdown, if_neg h, escapeFold_spec]

/-! Embedding of src/webhook_handler.py, WebhookHandler.verify_signature. -/

/-- The literal header tag checked by the source, the seven characters of
the text sha256 followed by an equals sign. -/
def sha256Tag : PyStr := ("sha256=").data

/-- Functional result of hmac.compare_digest: equality of the two strings.
The constant-time execution profile of the library routine is a timing
property with no counterpart in a functional embedding. -/
def compare_digest (a b : PyStr) : Bool := a == b

/-- Embedding of WebhookHandler.verify_signature (src/webhook_handler.py
lines 43-74). The HMAC-SHA256 hex digest is supplied as a function
parameter, standing for the hmac library call keyed by the UTF-8 encoded
secret; the control flow around it is the source's. An absent header is
none, an empty header string is some []; both are falsy in the source. -/
def verify_signature (hmacHex : PyStr → List Nat → PyStr)
    (secret : PyStr) (body : List Nat) (header : Option PyStr) : Bool :=
  if secret = [] then true
  else
    match header with
    | none => false
    | some h =>
      if h = [] then false
      else if sha256Tag.isPrefixOf h then
        compare_digest (hmacHex secret body) (h.drop 7)
      else false

theorem sha256Tag_isPrefixOf_append (d : PyStr) :
    sha256Tag.isPrefixOf (sha256Tag ++ d) = true := by
  rw [List.isPrefixOf_iff_prefix]
  exact List.prefix_append _ _

theorem drop_sha256Tag (d : PyStr) : (sha256Tag ++ d).drop 7 = d := by
  have h7 : sha256Tag.length = 7 := by decide
  rw [← h7, List.drop_left]

/-- Claim C1: verify_signature returns true when the secret is empty
regardless of the header; returns false when the header is absent or does
not start with the tag sha256=; and otherwise compares the hex digest of
the body against the part of the header after the tag, accepting exactly
the matching digest. -/
theorem claim_C1 (hmacHex : PyStr → List Nat → PyStr)
    (secret : PyStr) (body : List Nat) :
    (∀ header, verify_signature hmacHex [] body header = true) ∧
    (secret ≠ [] → verify_signature hmacHex secret body none = false) ∧
    (∀ h, secret ≠ [] → sha256Tag.isPrefixOf h = false →
      verify_signature hmacHex secret body (some h) = false) ∧
    (secret ≠ [] →
      verify_signature hmacHex secret body
        (some (sha256Tag ++ hmacHex secret body)) = true) ∧
    (∀ d, secret ≠ [] → d ≠ hmacHex secret body →
      verify_signature hmacHex secret body (some (sha256Tag ++ d)) = false) := by
  refine ⟨?_, ?_, ?_, ?_, ?_⟩
  · intro header
    simp [verify_signature]
  · intro hs
    simp [verify_signature, hs]
  · intro h hs hpre
    by_cases hnil : h = []
    · simp [verify_signature, hs, hnil]
    · simp [verify_signature, hs, hnil, hpre]
  · intro hs
    have hne : sha256Tag ++ hmacHex secret body ≠ [] := by
      simp [sha256Tag]
    simp only [verify_signature, if_neg hs, if_neg hne,
      sha256Tag_isPrefixOf_append, if_pos, drop_sha256Tag]
    simp [compare_digest]
  · intro d hs hd
    have hne : sha256Tag ++ d ≠ [] := by
      simp [sha256Tag]
    simp only [verify_signature, if_neg hs, if_neg hne,
      sha256Tag_isPrefixOf_append, if_pos, drop_sha256Tag]
    simp [compare_digest]
    intro heq
    exact hd heq.symm

/-- Concrete instance of claim C1: a dummy digest function, secret s and a
one-byte body, exercising the accepting header, the absent header and a
rejected wrong digest. -/
theorem claim_C1_witness :
    verify_signature (fun _ _ => ['a']) (("s").data) [1]
      (some (sha256Tag ++ ['a'])) = true ∧
    verify_signature (fun _ _ => ['a']) (("s").data) [1] none = false ∧
    verify_signature (fun _ _ => ['a']) (("s").data) [1]
      (some (sha256Tag ++ ['b'])) = false := by
  refine ⟨(claim_C1 (fun _ _ => ['a']) (("s").data) [1]).2.2.2.1 (by decide),
    (claim_C1 (fun _ _ => ['a']) (("s").data) [1]).2.1 (by decide),
    (claim_C1 (fun _ _ => ['a']) (("s").data) [1]).2.2.2.2 ['b'] (by decide)
      (by decide)⟩

/-! Embedding of src/config.py, Config.is_chat_allowed. -/

/-- Embedding of Config.is_chat_allowed (src/config.py lines 75-79): an
empty allow-list admits everyone, otherwise membership decides. It is a
plain function of its arguments, so it mutates nothing. -/
def is_chat_allowed (allowedChatIds : List Int) (chatId : Int) : Bool :=
  if allowedChatIds.isEmpty then true
  else allowedChatIds.contains chatId

/-- Claim C7: with an empty allow-list every chat id is admitted; with a
non-empty allow-list a chat id is admitted exactly when it is a member. -/
theorem claim_C7 (allowedChatIds : List Int) (chatId : Int) :
    (allowedChatIds = [] → is_chat_allowed allowedChatIds chatId = true) ∧
    (allowedChatIds ≠ [] →
      (is_chat_allowed allowedChatIds chatId = true ↔ chatId ∈ allowedChatIds)) := by
  constructor
  · intro h
    subst h
    rfl
  · intro h
    have : allowedChatIds.isEmpty = false := by
      simpa [List.isEmpty_iff] using h
    simp [is_chat_allowed, this, List.contains_eq_any_beq, List.any_beq]

/-- Concrete instance of claim C7: the empty allow-list admits chat 42, the
allow-list holding 5 admits 5 and rejects 42. -/
theorem claim_C7_witness :
    is_chat_allowed [] 42 = true ∧
    (is_chat_allowed [5] 5 = true ↔ (5 : Int) ∈ ([5] : List Int)) ∧
    (is_chat_allowed [5] 42 = true ↔ (42 : Int) ∈ ([5] : List Int)) := by
  exact ⟨(claim_C7 [] 42).1 rfl, (claim_C7 [5] 5).2 (by decide),
    (claim_C7 [5] 42).2 (by decide)⟩

/-! Embedding of src/telegram_bot.py, TelegramBot.is_rate_limited. -/

/-- Embedding of TelegramBot.is_rate_limited (src/telegram_bot.py lines
39-56). The defaultdict of per-chat timestamp lists becomes a function from
chat id to list; the method first overwrites the chat's list with the
timestamps newer than now minus the window, then rejects when that pruned
list already holds at least the maximum, and otherwise appends the current
time and admits. The returned flag is true when the chat is rate limited. -/
def is_rate_limited (maxReq window : Nat) (now : Int)
    (st : Int → List Int) (chat : Int) : Bool × (Int → List Int) :=
  if maxReq ≤ ((st chat).filter (fun t => decide (now - (window : Int) < t))).length then
    (true, Function.update st chat
      ((st chat).filter (fun t => decide (now - (window : Int) < t))))
  else
    (false, Function.update st chat
      ((st chat).filter (fun t => decide (now - (window : Int) < t)) ++ [now]))

/-- Claim C2: on every check the chat's stored timestamps are pruned to the
ones inside the trailing window, the call is admitted exactly when the
pruned count is below the maximum, admission appends the current time and
rejection appends nothing; hence a chat holding the maximum number of
in-window timestamps is rejected, and a chat whose timestamps have all
aged past the window is admitted again. -/
theorem claim_C2 (maxReq window : Nat) (now : Int)
    (st : Int → List Int) (chat : Int) :
    ((is_rate_limited maxReq window now st chat).1 = false ↔
      ((st chat).filter (fun t => decide (now - (window : Int) < t))).length < maxReq) ∧
    ((is_rate_limited maxReq window now st chat).1 = false →
      (is_rate_limited maxReq window now st chat).2 chat =
        (st chat).filter (fun t => decide (now - (window : Int) < t)) ++ [now]) ∧
    ((is_rate_limited maxReq window now st chat).1 = true →
      (is_rate_limited maxReq window now st chat).2 chat =
        (st chat).filter (fun t => decide (now - (window : Int) < t))) ∧
    (∀ t : Int, t ∈ (st chat).filter (fun t => decide (now - (window : Int) < t)) ↔
      t ∈ st chat ∧ now - (window : Int) < t) ∧
    (maxReq ≤ (st chat).length → (∀ t ∈ st chat, now - (window : Int) < t) →
      (is_rate_limited maxReq window now st chat).1 = true) ∧
    (0 < maxReq → (∀ t ∈ st chat, t < now - (window : Int)) →
      (is_rate_limited maxReq window now st chat).1 = false) := by
  refine ⟨?_, ?_, ?_, ?_, ?_, ?_⟩
  · unfold is_rate_limited
    split
    · next h => simpa using h
    · next h => simpa using Nat.lt_of_not_le h
  · intro hadm
    unfold is_rate_limited at hadm ⊢
    split at hadm
    · simp at hadm
    · next h =>
      rw [if_neg h]
      simp [Function.update_same]
  · intro hrej
    unfold is_rate_limited at hrej ⊢
    split at hrej
    · next h =>
      rw [if_pos h]
      simp [Function.update_same]
    · simp at hrej
  · intro t
    simp [List.mem_filter]
  · intro hlen hall
    have hfix : (st chat).filter (fun t => decide (now - (window : Int) < t)) = st chat := by
      apply List.filter_eq_self.mpr
      intro a ha
      simpa using hall a ha
    unfold is_rate_limited
    rw [hfix, if_pos hlen]
  · intro hpos hall
    have hnil : (st chat).filter (fun t => decide (now - (window : Int) < t)) = [] := by
      apply List.filter_eq_nil_iff.mpr
      intro a ha
      simpa using Int.not_lt.mpr (le_of_lt (hall a ha))
    unfold is_rate_limited
    rw [hnil]
    simp [Nat.not_le.mpr hpos]

/-- Concrete instance of claim C2: maximum two requests in a ten-second
window; a chat with two fresh timestamps is rejected and its list is left
as the pruned pair, while a chat whose only timestamp is stale is
admitted. -/
theorem claim_C2_witness :
    (is_rate_limited 2 10 100 (fun _ => [95, 99]) 0).1 = true ∧
    (is_rate_limited 2 10 100 (fun _ => [95, 99]) 0).2 0 = [95, 99] ∧
    (is_rate_limited 2 10 100 (fun _ => [50]) 7).1 = false := by
  have h := claim_C2 2 10 100 (fun _ => [95, 99]) 0
  have h1 : (is_rate_limited 2 10 100 (fun _ => [95, 99]) 0).1 = true :=
    h.2.2.2.2.1 (by decide) (by decide)
  have h2 := h.2.2.1 h1
  exact ⟨h1, h2.trans (by decide),
    (claim_C2 2 10 100 (fun _ => [50]) 7).2.2.2.2.2 (by decide) (by decide)⟩

/-- The sequence of rate-limit checks actually reachable at runtime: the
table starts empty (defaultdict of empty lists) and each call is a pair of
chat id and current time, threaded through is_rate_limited. -/
def runChecks (maxReq window : Nat) (calls : List (Int × Int)) : Int → List Int :=
  calls.foldl (fun st c => (is_rate_limited maxReq window c.2 st c.1).2) (fun _ => [])

theorem is_rate_limited_preserves (maxReq window : Nat) (now : Int)
    (st : Int → List Int) (chat : Int)
    (h : ∀ c, (st c).length ≤ maxReq) :
    ∀ c, (((is_rate_limited maxReq window now st chat).2) c).length ≤ maxReq := by
  intro c
  unfold is_rate_limited
  split
  · next hge =>
    by_cases hc : c = chat
    · subst hc
      simp only [Function.update_same]
      exact le_trans (List.length_filter_le _ _) (h c)
    · simp only [Function.update_noteq hc]
      exact h c
  · next hlt =>
    by_cases hc : c = chat
    · subst hc
      simp only [Function.update_same, List.length_append, List.length_cons,
        List.length_nil]
      omega
    · simp only [Function.update_noteq hc]
      exact h c

theorem runChecks_invariant (maxReq window : Nat) (calls : List (Int × Int)) :
    ∀ st : Int → List Int, (∀ c, (st c).length ≤ maxReq) →
      ∀ c, ((calls.foldl
        (fun st c => (is_rate_limited maxReq window c.2 st c.1).2) st) c).length ≤ maxReq := by
  induction calls with
  | nil =>
    intro st h c
    exact h c
  | cons call rest ih =>
    intro st h c
    rw [List.foldl_cons]
    exact ih _ (is_rate_limited_preserves maxReq window call.2 st call.1 h) c

/-- Claim C9: along any sequence of rate-limit checks starting from the
empty table, every chat's stored timestamp list always has length at most
the configured maximum, because rejected calls append nothing and admitted
calls only extend a pruned list that was strictly below the maximum. -/
theorem claim_C9 (maxReq window : Nat) (calls : List (Int × Int)) (chat : Int) :
    ((runChecks maxReq window calls) chat).length ≤ maxReq := by
  unfold runChecks
  exact runChecks_invariant maxReq window calls (fun _ => [])
    (fun _ => Nat.zero_le _) chat

/-! Embedding of src/telegram_bot.py, TelegramBot.handle_message. -/

/-- Whitespace characters for Python str.split with no argument, restricted
to the ASCII whitespace that can occur in Telegram message text. -/
def isPySpace (c : Char) : Bool :=
  c = ' ' || c = '\t' || c = '\n' || c = '\r'

/-- The first whitespace-delimited token of a string: leading whitespace is
skipped, then characters are taken up to the next whitespace. -/
def firstToken (s : PyStr) : PyStr :=
  (s.dropWhile isPySpace).takeWhile (fun c => !isPySpace c)

/-- The commands recognised by handle_message, one constructor per branch of
the dispatch chain plus the catch-all. -/
inductive BotCmd where
  | start
  | help
  | profile
  | repos
  | repo
  | commits
  | issues
  | search
  | status
  | unknown
  deriving DecidableEq

/-- The nine command prefixes of handle_message, in the source's order. -/
def knownCmds : List PyStr :=
  [("/start").data, ("/help").data, ("/profile").data, ("/repos").data,
   ("/repo").data, ("/commits").data, ("/issues").data, ("/search").data,
   ("/status").data]

/-- Embedding of the dispatch chain of TelegramBot.handle_message
(src/telegram_bot.py lines 549-580): the first startswith test that matches
the message text selects the handler, and no match selects the
unknown-command reply. -/
def commandOf (msg : PyStr) : BotCmd :=
  if (("/start").data).isPrefixOf msg then BotCmd.start
  else if (("/help").data).isPrefixOf msg then BotCmd.help
  else if (("/profile").data).isPrefixOf msg then BotCmd.profile
  else if (("/repos").data).isPrefixOf msg then BotCmd.repos
  else if (("/repo").data).isPrefixOf msg then BotCmd.repo
  else if (("/commits").data).isPrefixOf msg then BotCmd.commits
  else if (("/issues").data).isPrefixOf msg then BotCmd.issues
  else if (("/search").data).isPrefixOf msg then BotCmd.search
  else if (("/status").data).isPrefixOf msg then BotCmd.status
  else BotCmd.unknown

/-- Observable outcome of one incoming message. -/
inductive BotReply where
  | denied
  | throttled
  | handled (c : BotCmd)
  | unknownCmd
  deriving DecidableEq

/-- Embedding of TelegramBot.handle_message combined with check_permissions
(src/telegram_bot.py lines 58-79 and 549-580): every command handler and
the unknown-command branch first runs check_permissions, which denies an
unauthorized chat and throttles a rate-limited one; the authorization and
rate-limit outcomes are abstracted as the two booleans. -/
def handle_message (allowed limited : Bool) (msg : PyStr) : BotReply :=
  match commandOf msg with
  | BotCmd.unknown =>
    if allowed = false then BotReply.denied
    else if limited then BotReply.throttled
    else BotReply.unknownCmd
  | c =>
    if allowed = false then BotReply.denied
    else if limited then BotReply.throttled
    else BotReply.handled c

theorem isPrefixOf_takeWhile_eq (pr : Char → Bool) :
    ∀ (p l : PyStr), (∀ c ∈ p, pr c = true) →
      p.isPrefixOf (l.takeWhile pr) = p.isPrefixOf l := by
  intro p
  induction p with
  | nil =>
    intro l _
    simp [List.isPrefixOf]
  | cons a as ih =>
    intro l h
    cases l with
    | nil => rfl
    | cons b bs =>
      by_cases hb : pr b = true
      · rw [List.takeWhile_cons, if_pos hb]
        simp only [List.isPrefixOf]
        rw [ih bs (fun c hc => h c (List.mem_cons_of_mem _ hc))]
      · rw [List.takeWhile_cons, if_neg hb]
        have ha : pr a = true := h a (List.mem_cons_self _ _)
        have hab : (a == b) = false := by
          rw [beq_eq_false_iff_ne]
          intro hEq
          exact hb (hEq ▸ ha)
        simp [List.isPrefixOf, hab]

/-- Counterexample to claim C6 as stated: a message with one leading space
has the same first whitespace-delimited token as the bare command, yet it
is routed to the unknown-command reply while the bare command reaches the
start handler — so the handler chosen is not a function of the first
token. -/
theorem claim_C6_counterexample :
    firstToken ((" /start").data) = firstToken (("/start").data) ∧
    commandOf ((" /start").data) = BotCmd.unknown ∧
    commandOf (("/start").data) = BotCmd.start ∧
    handle_message true false ((" /start").data) = BotReply.unknownCmd ∧
    handle_message true false (("/start").data) = BotReply.handled BotCmd.start := by
  decide

/-- Claim C6 as amended: for a message with no leading whitespace the chosen
handler is determined by prefix match on its first whitespace-delimited
token; a message matching no known command prefix yields the generic
unknown-command reply, gated by the same authorization and rate-limit check
as the real commands. -/
theorem claim_C6 (allowed limited : Bool) (msg : PyStr)
    (h : ∀ c, msg.head? = some c → isPySpace c = false) :
    commandOf msg = commandOf (firstToken msg) ∧
    (commandOf msg = BotCmd.unknown ↔ ∀ p ∈ knownCmds, p.isPrefixOf msg = false) ∧
    (handle_message allowed limited msg = BotReply.unknownCmd ↔
      (allowed = true ∧ limited = false ∧ commandOf msg = BotCmd.unknown)) ∧
    (allowed = false → handle_message allowed limited msg = BotReply.denied) := by
  refine ⟨?_, ?_, ?_, ?_⟩
  · cases msg with
    | nil => rfl
    | cons m ms =>
      have hm : isPySpace m = false := h m rfl
      have hdrop : firstToken (m :: ms) =
          (m :: ms).takeWhile (fun c => !isPySpace c) := by
        rw [firstToken, List.dropWhile_cons, if_neg (by simp [hm])]
      rw [hdrop]
      have e1 := isPrefixOf_takeWhile_eq (fun c => !isPySpace c)
        (("/start").data) (m :: ms) (by decide)
      have e2 := isPrefixOf_takeWhile_eq (fun c => !isPySpace c)
        (("/help").data) (m :: ms) (by decide)
      have e3 := isPrefixOf_takeWhile_eq (fun c => !isPySpace c)
        (("/profile").data) (m :: ms) (by decide)
      have e4 := isPrefixOf_takeWhile_eq (fun c => !isPySpace c)
        (("/repos").data) (m :: ms) (by decide)
      have e5 := isPrefixOf_takeWhile_eq (fun c => !isPySpace c)
        (("/repo").data) (m :: ms) (by decide)
      have e6 := isPrefixOf_takeWhile_eq (fun c => !isPySpace c)
        (("/commits").data) (m :: ms) (by decide)
      have e7 := isPrefixOf_takeWhile_eq (fun c => !isPySpace c)
        (("/issues").data) (m :: ms) (by decide)
      have e8 := isPrefixOf_takeWhile_eq (fun c => !isPySpace c)
        (("/search").data) (m :: ms) (by decide)
      have e9 := isPrefixOf_takeWhile_eq (fun c => !isPySpace c)
        (("/status").data) (m :: ms) (by decide)
      simp only [commandOf, e1, e2, e3, e4, e5, e6, e7, e8, e9]
  · unfold commandOf
    by_cases h1 : (("/start").data).isPrefixOf msg = true
    · simp [h1, knownCmds]
    · rw [if_neg h1]
      by_cases h2 : (("/help").data).isPrefixOf msg = true
      · simp [h1, h2, knownCmds]
      · rw [if_neg h2]
        by_cases h3 : (("/profile").data).isPrefixOf msg = true
        · simp [h1, h2, h3, knownCmds]
        · rw [if_neg h3]
          by_cases h4 : (("/repos").data).isPrefixOf msg = true
          · simp [h1, h2, h3, h4, knownCmds]
          · rw [if_neg h4]
            by_cases h5 : (("/repo").data).isPrefixOf msg = true
            · simp [h1, h2, h3, h4, h5, knownCmds]
            · rw [if_neg h5]
              by_cases h6 : (("/commits").data).isPrefixOf msg = true
              · simp [h1, h2, h3, h4, h5, h6, knownCmds]
              · rw [if_neg h6]
                by_cases h7 : (("/issues").data).isPrefixOf msg = true
                · simp [h1, h2, h3, h4, h5, h6, h7, knownCmds]
                · rw [if_neg h7]
                  by_cases h8 : (("/search").data).isPrefixOf msg = true
                  · simp [h1, h2, h3, h4, h5, h6, h7, h8, knownCmds]
                  · rw [if_neg h8]
                    by_cases h9 : (("/status").data).isPrefixOf msg = true
                    · simp [h1, h2, h3, h4, h5, h6, h7, h8, h9, knownCmds]
                    · rw [if_neg h9]
                      have hall : ∀ p ∈ knownCmds, p.isPrefixOf msg = false := by
                        intro p hp
                        simp only [knownCmds, List.mem_cons, List.not_mem_nil,
                          or_false] at hp
                        rcases hp with rfl | rfl | rfl | rfl | rfl | rfl | rfl | rfl | rfl
                        · exact Bool.eq_false_iff.mpr h1
                        · exact Bool.eq_false_iff.mpr h2
                        · exact Bool.eq_false_iff.mpr h3
                        · exact Bool.eq_false_iff.mpr h4
                        · exact Bool.eq_false_iff.mpr h5
                        · exact Bool.eq_false_iff.mpr h6
                        · exact Bool.eq_false_iff.mpr h7
                        · exact Bool.eq_false_iff.mpr h8
                        · exact Bool.eq_false_iff.mpr h9
                      exact ⟨fun _ => hall, fun _ => rfl⟩
  · cases hc : commandOf msg <;> cases allowed <;> cases limited <;>
      simp [handle_message, hc]
  · intro ha
    subst ha
    cases hc : commandOf msg <;> simp [handle_message, hc]

/-- Concrete instance of the amended claim C6 at an unrecognized command
with no leading whitespace, authorized and not rate limited. -/
theorem claim_C6_witness :
    commandOf (("/foo x").data) = commandOf (firstToken (("/foo x").data)) ∧
    (commandOf (("/foo x").data) = BotCmd.unknown ↔
      ∀ p ∈ knownCmds, p.isPrefixOf (("/foo x").data) = false) ∧
    (handle_message true false (("/foo x").data) = BotReply.unknownCmd ↔
      (true = true ∧ false = false ∧ commandOf (("/foo x").data) = BotCmd.unknown)) ∧
    (true = false → handle_message true false (("/foo x").data) = BotReply.denied) :=
  claim_C6 true false (("/foo x").data) (by decide)

/-! Embedding of src/config.py, Config._parse_chat_ids. -/

/-- Python str.split on a single separator character: every occurrence
separates, and empty pieces are kept. -/
def pySplitChar (sep : Char) (s : PyStr) : List PyStr :=
  s.foldr
    (fun c acc =>
      if c = sep then [] :: acc else ((c :: acc.headD []) :: acc.tail))
    [[]]

/-- Python str.strip with no argument: whitespace removed from both ends. -/
def pyStrip (s : PyStr) : PyStr :=
  ((s.dropWhile isPySpace).reverse.dropWhile isPySpace).reverse

/-- Decimal digits to a number, failing on an empty or non-digit string. -/
def digitsToNat (l : PyStr) : Option Nat :=
  if l.isEmpty then none
  else if l.all Char.isDigit then
    some (l.foldl (fun a c => a * 10 + (c.toNat - 48)) 0)
  else none

/-- Python int() applied to an already stripped string: an optional sign
followed by at least one decimal digit, anything else raising ValueError
(modelled as none). -/
def pyParseInt (s : PyStr) : Option Int :=
  match s with
  | '-' :: rest => (digitsToNat rest).map (fun n => -(n : Int))
  | '+' :: rest => (digitsToNat rest).map (fun n => (n : Int))
  | _ => (digitsToNat s).map (fun n => (n : Int))

/-- Sequencing of fallible parses: the first failure aborts the whole list,
as the ValueError raised inside the comprehension does. -/
def optionMapM {α β : Type} (f : α → Option β) : List α → Option (List β)
  | [] => some []
  | x :: xs =>
    match f x, optionMapM f xs with
    | some y, some ys => some (y :: ys)
    | _, _ => none

/-- Embedding of Config._parse_chat_ids (src/config.py lines 45-53): an
empty configuration string yields the empty list; otherwise the string is
split on commas, each piece is stripped, pieces that strip to nothing are
skipped, and the remaining pieces are parsed as integers — any parse
failure discards the whole list. -/
def parse_chat_ids (s : PyStr) : List Int :=
  if s = [] then []
  else
    match optionMapM pyParseInt
        (((pySplitChar ',' s).map pyStrip).filter (fun e => !e.isEmpty)) with
    | some vals => vals
    | none => []

theorem optionMapM_eq_none {α β : Type} {f : α → Option β} {l : List α} {e : α}
    (he : e ∈ l) (hf : f e = none) : optionMapM f l = none := by
  induction l with
  | nil => cases he
  | cons x xs ih =>
    rcases List.mem_cons.mp he with rfl | hmem
    · simp [optionMapM, hf]
    · cases hx : f x <;> simp [optionMapM, hx, ih hmem]

/-- Counterexample to claim C10 as stated: in the configuration string 5
followed by a comma and a space, the second comma-separated entry strips
to the empty string and fails integer parsing, yet the allow-list becomes
the singleton 5 rather than the empty list, and chat 6 is rejected rather
than admitted. -/
theorem claim_C10_counterexample :
    (∃ e ∈ (pySplitChar ',' (("5, ").data)).map pyStrip, pyParseInt e = none) ∧
    parse_chat_ids (("5, ").data) = [5] ∧
    is_chat_allowed (parse_chat_ids (("5, ").data)) 6 = false := by
  decide

/-- Claim C10 as amended: if any comma-separated entry that is non-empty
after stripping fails integer parsing, the whole allow-list collapses to
the empty list, and the authorization gate then admits every chat id;
entries that strip to nothing are skipped without being parsed. -/
theorem claim_C10 (s : PyStr) (c : Int)
    (h : ∃ e ∈ ((pySplitChar ',' s).map pyStrip).filter (fun e => !e.isEmpty),
      pyParseInt e = none) :
    parse_chat_ids s = [] ∧ is_chat_allowed (parse_chat_ids s) c = true := by
  obtain ⟨e, he, hf⟩ := h
  have hnone := optionMapM_eq_none he hf
  have hres : parse_chat_ids s = [] := by
    unfold parse_chat_ids
    by_cases hs : s = []
    · rw [if_pos hs]
    · rw [if_neg hs, hnone]
  refine ⟨hres, ?_⟩
  rw [hres]
  rfl

/-- Concrete instance of the amended claim C10: the string 1,x holds the
malformed entry x, so the allow-list is empty and chat 99 is admitted. -/
theorem claim_C10_witness :
    parse_chat_ids (("1,x").data) = [] ∧
    is_chat_allowed (parse_chat_ids (("1,x").data)) 99 = true :=
  claim_C10 (("1,x").data) 99 (by decide)

/-! Embedding of src/webhook_handler.py, WebhookHandler.process_webhook. -/

/-- One inbound webhook request: whether reading it faults unexpectedly,
its raw body bytes, the signature header and the event type header. -/
structure HookRequest where
  fault : Bool
  body : List Nat
  sigHeader : Option PyStr
  eventType : Option PyStr

/-- The JSON bodies the handler can respond with. -/
inductive HookBody where
  | success
  | invalidSignature
  | invalidJson
  | internalError
  deriving DecidableEq

/-- Embedding of WebhookHandler.process_webhook (src/webhook_handler.py
lines 76-103): any unexpected fault answers 500, a failed signature check
answers 403, an unparsable body answers 400, and everything else answers
200 — handle_github_event catches its own exceptions (lines 105-132) and
its outcome never reaches the response, so JSON parsing is abstracted to
the predicate parses and classification does not appear. -/
def process_webhook (hmacHex : PyStr → List Nat → PyStr) (secret : PyStr)
    (parses : List Nat → Bool) (req : HookRequest) : Nat × HookBody :=
  if req.fault then (500, HookBody.internalError)
  else if verify_signature hmacHex secret req.body req.sigHeader = false then
    (403, HookBody.invalidSignature)
  else if parses req.body = false then (400, HookBody.invalidJson)
  else (200, HookBody.success)

/-- Claim C5: the webhook endpoint answers 403 invalid-signature when
verification fails, 400 invalid-json when the body does not parse, 200
success on every accepted request regardless of the event type — unknown
and suppressed events included — and 500 on an unexpected internal
fault. -/
theorem claim_C5 (hmacHex : PyStr → List Nat → PyStr) (secret : PyStr)
    (parses : List Nat → Bool) (req : HookRequest) :
    (req.fault = true →
      process_webhook hmacHex secret parses req = (500, HookBody.internalError)) ∧
    (req.fault = false →
      verify_signature hmacHex secret req.body req.sigHeader = false →
      process_webhook hmacHex secret parses req = (403, HookBody.invalidSignature)) ∧
    (req.fault = false →
      verify_signature hmacHex secret req.body req.sigHeader = true →
      parses req.body = false →
      process_webhook hmacHex secret parses req = (400, HookBody.invalidJson)) ∧
    (req.fault = false →
      verify_signature hmacHex secret req.body req.sigHeader = true →
      parses req.body = true →
      process_webhook hmacHex secret parses req = (200, HookBody.success)) ∧
    (∀ e : Option PyStr,
      process_webhook hmacHex secret parses
        { req with eventType := e } = process_webhook hmacHex secret parses req) := by
  refine ⟨?_, ?_, ?_, ?_, ?_⟩
  · intro hf
    simp [process_webhook, hf]
  · intro hf hv
    simp [process_webhook, hf, hv]
  · intro hf hv hp
    simp [process_webhook, hf, hv, hp]
  · intro hf hv hp
    simp [process_webhook, hf, hv, hp]
  · intro e
    rfl

/-- Concrete instance of claim C5: with no secret configured a plain
request is accepted with 200, and with secret s but no signature header
the request is rejected with 403. -/
theorem claim_C5_witness :
    process_webhook (fun _ _ => []) [] (fun _ => true)
      { fault := false, body := [1], sigHeader := none,
        eventType := some (("push").data) } = (200, HookBody.success) ∧
    process_webhook (fun _ _ => []) (("s").data) (fun _ => true)
      { fault := false, body := [1], sigHeader := none,
        eventType := none } = (403, HookBody.invalidSignature) := by
  refine ⟨(claim_C5 (fun _ _ => []) [] (fun _ => true) _).2.2.2.1 rfl (by decide) rfl,
    (claim_C5 (fun _ _ => []) (("s").data) (fun _ => true) _).2.1 rfl (by decide)⟩

/-! Embedding of src/webhook_handler.py, WebhookHandler.format_push_event. -/

/-- One commit of a push payload, with the fields the formatter reads,
each already defaulted as the source's dict.get calls do: message, the
author's name, the id field and the commit url. -/
structure PushCommit where
  message : PyStr
  authorName : PyStr
  commitId : PyStr
  url : PyStr
  deriving DecidableEq

/-- A push payload, with the fields the formatter reads already extracted:
repository full name and html url, the ref, the commit list and the
pusher's name. -/
structure PushPayload where
  repoFullName : PyStr
  repoHtmlUrl : PyStr
  ref : PyStr
  commits : List PushCommit
  pusherName : PyStr
  deriving DecidableEq

/-- Decimal rendering of a count, as Python str of an int. -/
def natStr (n : Nat) : PyStr := (Nat.repr n).data

/-- The branch computation of the source (line 140): the last piece of the
slash-split ref when the ref starts with refs/heads/, the ref verbatim
otherwise. -/
def branchOf (r : PyStr) : PyStr :=
  if (("refs/heads/").data).isPrefixOf r then (pySplitChar '/' r).getLastD []
  else r

/-- The loop body of the formatter (lines 153-160): one commit rendered as
its escaped message, escaped author name, seven-character id and url. -/
def renderCommit (c : PushCommit) : PyStr :=
  ("🔸 **").data ++ escape_markdown c.message ++ ("**\n").data ++
  ("👤 ").data ++ escape_markdown c.authorName ++ (" • [`").data ++
  (c.commitId.take 7) ++ ("`](").data ++ c.url ++ (")\n\n").data

/-- Embedding of WebhookHandler.format_push_event (src/webhook_handler.py
lines 134-173): none when the commit list is empty, otherwise the header
lines, the first three commits appended in a loop, the more-commits
trailer when more than three, and the repository link when the html url
is non-empty. -/
def format_push_event (p : PushPayload) : Option PyStr :=
  if p.commits = [] then none
  else
    let m4 :=
      ("🚀 **Push to ").data ++ escape_markdown p.repoFullName ++ ("**\n\n").data ++
      ("🌿 **Branch:** ").data ++ escape_markdown (branchOf p.ref) ++ ("\n").data ++
      ("👤 **Pusher:** ").data ++ escape_markdown p.pusherName ++ ("\n").data ++
      ("📝 **Commits:** ").data ++ natStr p.commits.length ++ ("\n\n").data
    let m5 := (p.commits.take 3).foldl (fun m c => m ++ renderCommit c) m4
    let m6 :=
      if 3 < p.commits.length then
        m5 ++ ("... and ").data ++ natStr (p.commits.length - 3) ++
          (" more commits\n\n").data
      else m5
    some (if p.repoHtmlUrl = [] then m6
      else m6 ++ ("🔗 [View Repository](").data ++ p.repoHtmlUrl ++ (")").data)

/-- The header of the push message as the specification lists it:
repository full name, branch, pusher and total commit count. -/
def pushHeader (p : PushPayload) : PyStr :=
  ("🚀 **Push to ").data ++ escape_markdown p.repoFullName ++ ("**\n\n").data ++
  ("🌿 **Branch:** ").data ++ escape_markdown (branchOf p.ref) ++ ("\n").data ++
  ("👤 **Pusher:** ").data ++ escape_markdown p.pusherName ++ ("\n").data ++
  ("📝 **Commits:** ").data ++ natStr p.commits.length ++ ("\n\n").data

/-- The more-commits trailer: present exactly when more than three commits
were pushed, naming how many were left out. -/
def pushTrailer (p : PushPayload) : PyStr :=
  if 3 < p.commits.length then
    ("... and ").data ++ natStr (p.commits.length - 3) ++ (" more commits\n\n").data
  else []

/-- The repository link, absent when the payload has no html url. -/
def pushFooter (p : PushPayload) : PyStr :=
  if p.repoHtmlUrl = [] then []
  else ("🔗 [View Repository](").data ++ p.repoHtmlUrl ++ (")").data

theorem foldl_append_flatten {α : Type} (f : α → PyStr) :
    ∀ (l : List α) (m : PyStr),
      l.foldl (fun a c => a ++ f c) m = m ++ (l.map f).flatten := by
  intro l
  induction l with
  | nil =>
    intro m
    simp
  | cons x xs ih =>
    intro m
    simp [ih, List.append_assoc]

/-- Claim C4: the push formatter returns none exactly when the payload has
no commits; otherwise the message is the header naming repository, branch,
pusher and total count, followed by the renderings of at most the first
three commits, the more-commits trailer exactly when the total exceeds
three, and the repository link. -/
theorem claim_C4 (p : PushPayload) :
    (format_push_event p = none ↔ p.commits = []) ∧
    (p.commits ≠ [] →
      format_push_event p =
        some (pushHeader p ++ ((p.commits.take 3).map renderCommit).flatten ++
          pushTrailer p ++ pushFooter p)) := by
  constructor
  · by_cases hc : p.commits = [] <;> simp [format_push_event, hc]
  · intro hc
    unfold format_push_event
    rw [if_neg hc]
    by_cases h3 : 3 < p.commits.length <;> by_cases hu : p.repoHtmlUrl = [] <;>
      simp [foldl_append_flatten, pushHeader, pushTrailer, pushFooter, h3, hu,
        List.append_assoc]

/-- A five-commit push payload used to instantiate claim C4. -/
def samplePush : PushPayload :=
  { repoFullName := ("octo/demo").data
    repoHtmlUrl := ("https://example.org/octo/demo").data
    ref := ("refs/heads/main").data
    commits :=
      [{ message := ("m1").data, authorName := ("Ann").data,
         commitId := ("abcdef1234").data, url := ("https://example.org/c1").data },
       { message := ("m2").data, authorName := ("Ben").data,
         commitId := ("bbcdef1234").data, url := ("https://example.org/c2").data },
       { message := ("m3").data, authorName := ("Cho").data,
         commitId := ("cbcdef1234").data, url := ("https://example.org/c3").data },
       { message := ("m4").data, authorName := ("Dee").data,
         commitId := ("dbcdef1234").data, url := ("https://example.org/c4").data },
       { message := ("m5").data, authorName := ("Eve").data,
         commitId := ("ebcdef1234").data, url := ("https://example.org/c5").data }]
    pusherName := ("octo").data }

/-- Concrete instance of claim C4: five commits render as the header, the
first three commits and a trailer announcing 2 more commits. -/
theorem claim_C4_witness :
    format_push_event samplePush =
      some (pushHeader samplePush ++
        ((samplePush.commits.take 3).map renderCommit).flatten ++
        pushTrailer samplePush ++ pushFooter samplePush) ∧
    pushTrailer samplePush = ("... and 2 more commits\n\n").data := by
  refine ⟨(claim_C4 samplePush).2 (by decide), by decide⟩
